import Mathlib

/-!
The bleve demo program (`main.go`): batching, query planning, rendering, session.

A shallow embedding of `createUsers`, `seedIndex`, `search` and the loop of
`main`, followed by the properties of the specification that were checked
against it.

Conventions of the embedding

* A Go `string` is a Lean `String`; the string functions used by the program
  are written over the character list of the string.  The only separator the
  program searches for is the one-byte `"\n"`, and UTF-8 is
  self-synchronising, so working on characters or on bytes is the same.
* A Go `int` is a Lean `Int`; the list positions `i` of `createUsers` are
  `Nat`.  A slice of `User` (more than 100 bytes each) cannot hold `2^63 - 1000`
  elements, so `i + 1000` never leaves the 64-bit range in a run that returns.
* A `float64` that is only carried around or compared with the constants
  18, 25, 45, 64 is a rational number.
* The index (`bleve.Index`) and the random generators are external: `search`
  and the batching loop take the methods `Search` and `Batch` as oracles, the
  generators are a function giving the draws of iteration `i`.  The index
  that `main` builds holds the documents `seedIndex` has submitted; its
  engine (parsing, matching, scoring) is an oracle that picks and orders
  documents, and its hits carry the typed fields of those documents.
-/

namespace BleveDemo

/-! ## Data model -/

/-- The Go type `time.Time`, here only carried around: seconds since the epoch. -/
structure Time where
  unix : Int
  deriving DecidableEq, Repr

/-- The struct `User` of main.go. -/
structure User where
  ID : Int
  Firstname : String
  Lastname : String
  Gender : String
  BirthDate : Time
  Age : Int
  CreatedAt : Time
  LastOnlineAt : Time
  deriving DecidableEq, Repr

/-- What the external generators (`randomdata`, `age.Age`, `time.Parse`) give
in one iteration of the loop of `createUsers`. -/
structure Draw where
  createdAt : Time
  lastOnlineAt : Time
  birthDate : Time
  age : Int
  gender : String
  first : String
  last : String
  deriving DecidableEq, Repr

/-! ## `createUsers` -/

/-- The body of the loop of `createUsers` at iteration `i`: the struct literal
of lines 45-54. -/
def mkUser (d : Draw) (i : Nat) : User :=
  { ID := (i : Int) + 1000
    Gender := d.gender
    Firstname := d.first
    Lastname := d.last
    BirthDate := d.birthDate
    CreatedAt := d.createdAt
    LastOnlineAt := d.lastOnlineAt
    Age := d.age }

/-- The function `createUsers(numUsers)`: iterations `i = 0, 1, ...` while
`i < numUsers`, each appending one user; `draws i` is what the generators
return in iteration `i`. -/
def createUsers (draws : Nat → Draw) (numUsers : Int) : List User :=
  (List.range numUsers.toNat).map (fun i => mkUser (draws i) i)

/-! ## Go's conversion `string(i)` of an integer -/

/-- A valid Unicode code point: in range and not a surrogate. -/
def validRune (i : Int) : Bool :=
  (0 ≤ i && i < 0xD800) || (0xDFFF < i && i ≤ 0x10FFFF)

/-- Go's `string(i)` for an integer `i`: the UTF-8 string of the code point
`i`, and of U+FFFD when `i` is not a valid code point. -/
def stringOfInt (i : Int) : String :=
  if validRune i then String.singleton (Char.ofNat i.toNat) else String.singleton (Char.ofNat 0xFFFD)

/-! ## `seedIndex`: the batching loop -/

/-- One staged operation of a batch: `batch.Index(key, user)`. -/
abbrev Op := String × User

/-- A `bleve.Batch`: the operations staged in it, in staging order. -/
abbrev Batch := List Op

/-- How the seeding ended: it returned, or `panic(err)` was reached. -/
inductive SeedEnd where
  | returned
  | panicked (err : String)
  deriving DecidableEq, Repr

/-- The observable run of the seeding loop: the batches handed to
`index.Batch`, in call order, and how the run ended. -/
structure SeedRun where
  calls : List Batch
  ending : SeedEnd
  deriving DecidableEq, Repr

/-- The loop of `seedIndex` (lines 71-84) followed by the flush after the
loop (lines 86-92), from a given loop state.  `indexBatch b` is the error
returned by `index.Batch(b)`, `none` for `nil`. -/
def seedLoop (indexBatch : Batch → Option String) (batchSize : Nat) :
    List User → Batch → Nat → List Batch → SeedRun
  | [], batch, batchCount, calls =>
    if batchCount > 0 then
      match indexBatch batch with
      | some err => { calls := calls ++ [batch], ending := .panicked err }
      | none => { calls := calls ++ [batch], ending := .returned }
    else
      { calls := calls, ending := .returned }
  | user :: rest, batch, batchCount, calls =>
    let batch1 := batch ++ [(stringOfInt user.ID, user)]
    let batchCount1 := (batchCount + 1) % (batchSize + 1)
    if batchCount1 = batchSize then
      match indexBatch batch1 with
      | some err => { calls := calls ++ [batch1], ending := .panicked err }
      | none => seedLoop indexBatch batchSize rest [] batchCount1 (calls ++ [batch1])
    else
      seedLoop indexBatch batchSize rest batch1 batchCount1 calls

/-- The batching of `seedIndex` as a function of the record sequence and of
`batchSize`: empty batch, `batchCount = 0`, no call made yet. -/
def seedBatches (indexBatch : Batch → Option String) (batchSize : Nat)
    (users : List User) : SeedRun :=
  seedLoop indexBatch batchSize users [] 0 []

/-- The function `seedIndex` as the program runs it: `createUsers(100)` and
`batchSize := 10`. -/
def seedIndex (draws : Nat → Draw) (indexBatch : Batch → Option String) : SeedRun :=
  seedBatches indexBatch 10 (createUsers draws 100)

/-- An index whose `Batch` always succeeds (the in-memory index of `main`). -/
def batchOk : Batch → Option String := fun _ => none

/-- A fixed draw, for concrete runs. -/
def sampleDraw : Draw :=
  { createdAt := ⟨1570000000⟩, lastOnlineAt := ⟨1588000000⟩, birthDate := ⟨315532800⟩,
    age := 40, gender := "female", first := "Ada", last := "Byron" }

/-- The users of a concrete run: every iteration draws `sampleDraw`. -/
def sampleUsers (n : Nat) : List User :=
  createUsers (fun _ => sampleDraw) n

/-- The sizes of the batches handed to `index.Batch`, in call order. -/
def batchSizes (r : SeedRun) : List Nat :=
  r.calls.map List.length

/-- The records of all submitted batches, in submission order. -/
def submittedRecords (r : SeedRun) : List User :=
  (r.calls.map (fun b => b.map Prod.snd)).flatten

/-! ## The search request of bleve -/

/-- One labelled range of a numeric facet (`numericRange` of bleve): `none` is
the `nil` bound. -/
structure NumericRange where
  Name : String
  Min : Option ℚ
  Max : Option ℚ
  deriving DecidableEq, Repr

/-- Modelled from the spec: the test of bleve's numeric facet builder, which is
not part of main.go.  A range holds the values from its lower bound
(inclusive) up to its upper bound (exclusive); a `nil` bound is infinite. -/
def NumericRange.contains {α : Type} [LinearOrderedField α] (r : NumericRange) (x : α) : Prop :=
  (∀ lo, r.Min = some lo → (lo : α) ≤ x) ∧ (∀ hi, r.Max = some hi → x < (hi : α))

instance {α : Type} [LinearOrderedField α] (r : NumericRange) (x : α) :
    Decidable (r.contains x) :=
  match hmin : r.Min, hmax : r.Max with
  | none, none => isTrue ⟨fun _ h => by simp [hmin] at h, fun _ h => by simp [hmax] at h⟩
  | none, some hi =>
    if h2 : x < (hi : α) then
      isTrue ⟨fun _ h => by simp [hmin] at h, fun _ h => by simp [hmax] at h; exact h ▸ h2⟩
    else isFalse (fun h => h2 (h.2 hi hmax))
  | some lo, none =>
    if h1 : (lo : α) ≤ x then
      isTrue ⟨fun _ h => by simp [hmin] at h; exact h ▸ h1, fun _ h => by simp [hmax] at h⟩
    else isFalse (fun h => h1 (h.1 lo hmin))
  | some lo, some hi =>
    if h1 : (lo : α) ≤ x then
      if h2 : x < (hi : α) then
        isTrue ⟨fun _ h => by simp [hmin] at h; exact h ▸ h1,
          fun _ h => by simp [hmax] at h; exact h ▸ h2⟩
      else isFalse (fun h => h2 (h.2 hi hmax))
    else isFalse (fun h => h1 (h.1 lo hmin))

/-- The struct `bleve.FacetRequest`, without its date ranges (never used). -/
structure FacetRequest where
  Size : Int
  Field : String
  NumericRanges : List NumericRange
  deriving DecidableEq, Repr

/-- Modelled from the spec: `bleve.NewFacetRequest(field, size)`, which is
library code outside main.go: a facet over `field` limited to `size` values,
with no range yet. -/
def NewFacetRequest (field : String) (size : Int) : FacetRequest :=
  { Size := size, Field := field, NumericRanges := [] }

/-- Modelled from the spec: `fr.AddNumericRange(name, min, max)` appends one
labelled range to the facet. -/
def FacetRequest.AddNumericRange (fr : FacetRequest) (name : String)
    (min max : Option ℚ) : FacetRequest :=
  { fr with NumericRanges := fr.NumericRanges ++ [{ Name := name, Min := min, Max := max }] }

/-- Assignment `m[k] = v` in a Go map kept as an association list: the value
of an existing key is replaced, a new key is added. -/
def mapSet {β : Type} (m : List (String × β)) (k : String) (v : β) : List (String × β) :=
  match m with
  | [] => [(k, v)]
  | (k1, v1) :: rest => if k1 = k then (k, v) :: rest else (k1, v1) :: mapSet rest k v

/-- The struct `bleve.SearchRequest`, as far as `search` sets it: the query
string of its query-string query, the pagination window, the field
projection, the named facets and the flag `IncludeLocations`. -/
structure SearchRequest where
  Query : String
  Size : Int
  From : Int
  Fields : List String
  Facets : List (String × FacetRequest)
  IncludeLocations : Bool
  deriving DecidableEq, Repr

/-- Modelled from the spec: `bleve.NewSearchRequest(bleve.NewQueryStringQuery(q))`,
which is library code outside main.go: a request for the query string `q`,
taken unmodified, with the defaults of the library (10 hits from offset 0,
no field, no facet). -/
def NewSearchRequest (q : String) : SearchRequest :=
  { Query := q, Size := 10, From := 0, Fields := [], Facets := [],
    IncludeLocations := false }

/-- Modelled from the spec: `r.AddFacet(name, f)` sets the facet of that name. -/
def SearchRequest.AddFacet (r : SearchRequest) (name : String) (f : FacetRequest) :
    SearchRequest :=
  { r with Facets := mapSet r.Facets name f }

/-- Lines 98-138 of `search`: the request built for `searchString`. -/
def searchRequestFor (searchString : String) : SearchRequest :=
  let searchRequest := NewSearchRequest searchString
  let searchRequest := { searchRequest with IncludeLocations := false }
  let searchRequest := { searchRequest with Fields := ["id", "firstname", "lastname", "age"] }
  -- Gender
  let genderFacet := NewFacetRequest "gender" 2
  let genderFacet := { genderFacet with Field := "gender" }
  let searchRequest := searchRequest.AddFacet "gender" genderFacet
  -- Age
  let eighteen : ℚ := 18
  let twentyfive : ℚ := 25
  let fourtyfive : ℚ := 45
  let sixtyfour : ℚ := 64
  let ageFacet := NewFacetRequest "age" 5
  let ageFacet := ageFacet.AddNumericRange "teenager" none (some eighteen)
  let ageFacet := ageFacet.AddNumericRange "young-adult" (some eighteen) (some twentyfive)
  let ageFacet := ageFacet.AddNumericRange "adult" (some twentyfive) (some fourtyfive)
  let ageFacet := ageFacet.AddNumericRange "senior-adult" (some fourtyfive) (some sixtyfour)
  let ageFacet := ageFacet.AddNumericRange "senior" (some sixtyfour) none
  let searchRequest := searchRequest.AddFacet "age_group" ageFacet
  -- Pagination
  let searchRequest := { searchRequest with From := 0 }
  let searchRequest := { searchRequest with Size := 5 }
  searchRequest

/-! ## Search results and the table -/

/-- A Go value of dynamic type (`interface{}`), as far as `search` tells the
types apart: a `float64`, a `string`, or a value of another type (named by
`goType`). -/
inductive Value where
  | float64 (x : ℚ)
  | string (s : String)
  | other (goType : String)
  deriving DecidableEq, Repr

/-- One hit (`search.DocumentMatch`): its document id and its `Fields` map. -/
structure DocumentMatch where
  ID : String
  Fields : List (String × Value)
  deriving DecidableEq, Repr

/-- The part of `bleve.SearchResult` that `search` reads: the hits, in order. -/
structure SearchResult where
  Hits : List DocumentMatch
  deriving DecidableEq, Repr

/-- A `table.Row`: a slice of values. -/
abbrev Row := List Value

/-- The state of the table writer: rows appended as header and as body. -/
structure Table where
  header : List Row
  rows : List Row
  deriving DecidableEq, Repr

/-- The type assertion `v.(float64)` on a map lookup: `none` is the panic
(wrong dynamic type, or a `nil` interface when the key is absent). -/
def assertFloat64 : Option Value → Option ℚ
  | some (.float64 x) => some x
  | _ => none

/-- The type assertion `v.(string)` on a map lookup: `none` is the panic. -/
def assertString : Option Value → Option String
  | some (.string s) => some s
  | _ => none

/-- The row literal of lines 151-156 for one hit: the four assertions in
source order; `none` when one of them panics. -/
def hitRow (item : DocumentMatch) : Option Row :=
  match assertFloat64 (item.Fields.lookup "id") with
  | none => none
  | some id =>
    match assertString (item.Fields.lookup "firstname") with
    | none => none
    | some firstname =>
      match assertString (item.Fields.lookup "lastname") with
      | none => none
      | some lastname =>
        match assertFloat64 (item.Fields.lookup "age") with
        | none => none
        | some age => some [.float64 id, .string firstname, .string lastname, .float64 age]

/-- The loop of lines 148-159: one `AppendRows` per hit, in order; `none` when
building a row panics. -/
def appendHits : List DocumentMatch → Table → Option Table
  | [], t => some t
  | item :: rest, t =>
    match hitRow item with
    | none => none
    | some row => appendHits rest { t with rows := t.rows ++ [row] }

/-- Lines 145-160 of `search`: the table rendered for a search result, `none`
when the rendering panics (nothing has been written then: `t.Render()` is
the only statement that writes). -/
def renderResult (searchResult : SearchResult) : Option Table :=
  let t : Table := { header := [], rows := [] }
  let t := { t with header := t.header ++
    [[Value.string "#", .string "First Name", .string "Last Name", .string "Age"]] }
  appendHits searchResult.Hits t

/-- How a call of `search` ended. -/
inductive SearchEnd where
  | returnedNil
  | returnedErr (err : String)
  | panicked
  deriving DecidableEq, Repr

/-- The observable run of one call of `search`: the requests handed to
`index.Search`, the table written to standard output, and how the call ended. -/
structure SearchRun where
  requests : List SearchRequest
  rendered : Option Table
  ending : SearchEnd
  deriving DecidableEq, Repr

/-- The function `search(searchString, index)`; `indexSearch` is the method
`index.Search` of the index. -/
def search (indexSearch : SearchRequest → Except String SearchResult)
    (searchString : String) : SearchRun :=
  let searchRequest := searchRequestFor searchString
  match indexSearch searchRequest with
  | .error err => { requests := [searchRequest], rendered := none, ending := .returnedErr err }
  | .ok searchResult =>
    match renderResult searchResult with
    | none => { requests := [searchRequest], rendered := none, ending := .panicked }
    | some t => { requests := [searchRequest], rendered := some t, ending := .returnedNil }

/-! ## The loop of `main` -/

/-- Replacement of every match of a non-empty `old`, scanning left to right;
`skip` counts the characters of the current match still to be dropped. -/
def replaceScan (old new : List Char) : List Char → Nat → List Char
  | [], _ => []
  | _ :: cs, skip + 1 => replaceScan old new cs skip
  | c :: cs, 0 =>
    if old.isPrefixOf (c :: cs) then new ++ replaceScan old new cs (old.length - 1)
    else c :: replaceScan old new cs 0

/-- Go's `strings.Replace(s, old, new, -1)`: every non-overlapping match of
`old`, leftmost first, is replaced by `new`; an empty `old` matches before
every character and at the end of the string. -/
def stringsReplaceAll (s old new : String) : String :=
  if old.data = [] then String.mk (new.data ++ s.data.flatMap (fun c => c :: new.data))
  else String.mk (replaceScan old.data new.data s.data 0)

/-- Lines 187-189: the text that `main` derives from a line it has read. -/
def lineText (line : String) : String :=
  stringsReplaceAll line "\n" ""

/-- The states of the session: reading the next line, ended by `return`, or
ended by a panic. -/
inductive SessionState where
  | Reading
  | Done
  | Crashed
  deriving DecidableEq, Repr

/-- Something written to standard output. -/
inductive Output where
  | text (s : String)
  | table (t : Table)
  deriving DecidableEq, Repr

/-- One iteration of the loop of `main`: the state after it, the requests
handed to `index.Search` during it, and what it printed. -/
structure StepRun where
  state : SessionState
  searches : List SearchRequest
  printed : List Output
  deriving DecidableEq, Repr

/-- One iteration of the loop of `main` (lines 185-199) on the line returned
by `reader.ReadString`. -/
def mainStep (indexSearch : SearchRequest → Except String SearchResult)
    (line : String) : StepRun :=
  let text := lineText line
  if "exit" = text then
    { state := .Done, searches := [], printed := [.text "-> ", .text "Goodbye!\n"] }
  else
    let run := search indexSearch text
    match run.ending with
    | .returnedNil =>
      { state := .Reading, searches := run.requests,
        printed := .text "-> " :: (run.rendered.map Output.table).toList }
    | .returnedErr err =>
      { state := .Reading, searches := run.requests,
        printed := [.text "-> ", .text ("Error while searching!\n " ++ err ++ "\n")] }
    | .panicked =>
      { state := .Crashed, searches := run.requests, printed := [.text "-> "] }

/-! ## Vocabulary of the properties -/

/-- The ranges of the facet that the request for `searchString` carries under
the name `age_group`. -/
def ageGroupRanges (searchString : String) : List NumericRange :=
  match (searchRequestFor searchString).Facets.lookup "age_group" with
  | some fr => fr.NumericRanges
  | none => []

/-- A hit whose four projected fields have the types `search` asserts. -/
def WellTyped (hit : DocumentMatch) : Prop :=
  ∃ (id : ℚ) (firstname lastname : String) (age : ℚ),
    hit.Fields.lookup "id" = some (.float64 id) ∧
    hit.Fields.lookup "firstname" = some (.string firstname) ∧
    hit.Fields.lookup "lastname" = some (.string lastname) ∧
    hit.Fields.lookup "age" = some (.float64 age)

/-- The values a hit holds for id, firstname, lastname and age, in this order
(`none` for a field the hit does not have). -/
def projectedFields (hit : DocumentMatch) : List (Option Value) :=
  ["id", "firstname", "lastname", "age"].map (fun k => hit.Fields.lookup k)

/-- The header row of the table. -/
def headerRow : Row :=
  [.string "#", .string "First Name", .string "Last Name", .string "Age"]

/-- A well-typed hit, for concrete runs. -/
def goodHit : DocumentMatch :=
  { ID := "a", Fields := [("id", .float64 1000), ("firstname", .string "Ada"),
      ("lastname", .string "Byron"), ("age", .float64 40)] }

/-- A hit whose field `age` is a string, for concrete runs. -/
def badHit : DocumentMatch :=
  { ID := "b", Fields := [("id", .float64 1001), ("firstname", .string "Ada"),
      ("lastname", .string "Byron"), ("age", .string "40")] }

/-! ## The index that `main` builds -/

/-- Modelled from the spec: the typed value the index returns for a field of
an indexed `User`, by the JSON name of the field (bleve is library code
outside main.go).  Numbers come back as float64 and text as string; the
date fields, which `search` never requests, are values of another type. -/
def userField (user : User) (name : String) : Option Value :=
  if name = "id" then some (.float64 user.ID)
  else if name = "firstname" then some (.string user.Firstname)
  else if name = "lastname" then some (.string user.Lastname)
  else if name = "gender" then some (.string user.Gender)
  else if name = "age" then some (.float64 user.Age)
  else if name = "birthdate" ∨ name = "created_at" ∨ name = "last_online_at" then
    some (.other "datetime")
  else none

/-- Modelled from the spec: the hit for an indexed document, a mapping from
the requested field names to the typed values of the document. -/
def hitOfDoc (fields : List String) (doc : Op) : DocumentMatch :=
  { ID := doc.1
    Fields := fields.filterMap (fun name => (userField doc.2 name).map (fun v => (name, v))) }

/-- Modelled from the spec: `index.Search` of an index holding `docs`.  The
engine (query parsing, matching, scoring) is external: `engine req docs` is
its error, or the positions in `docs` of the matching documents in ranked
order.  The hits are the documents of the pagination window of the request,
each with the requested fields. -/
def memIndexSearch (engine : SearchRequest → List Op → Except String (List Nat))
    (docs : List Op) (req : SearchRequest) : Except String SearchResult :=
  match engine req docs with
  | .error err => .error err
  | .ok ranked =>
    .ok { Hits := (((ranked.filterMap (fun i => docs[i]?)).drop req.From.toNat).take
        req.Size.toNat).map (hitOfDoc req.Fields) }

/-- The documents of the index when the loop of `main` starts: `main` creates
an empty in-memory index (line 170) and `seedIndex` submits its batches to it
(line 177). -/
def mainIndexDocs (draws : Nat → Draw) : List Op :=
  (seedIndex draws batchOk).calls.flatten

/-- One iteration of the loop of `main` on the index that `main` has built. -/
def mainLoopStep (draws : Nat → Draw)
    (engine : SearchRequest → List Op → Except String (List Nat)) (line : String) : StepRun :=
  mainStep (memIndexSearch engine (mainIndexDocs draws)) line

/-- An engine for concrete runs: the query `gender:` is a syntax error, every
other query matches the documents at positions 0, 3 and 7. -/
def sampleEngine : SearchRequest → List Op → Except String (List Nat) :=
  fun req _ => if req.Query = "gender:" then .error "syntax error" else .ok [0, 3, 7]

/-- An index whose `Batch` fails on every batch of more than 10 operations. -/
def batchLimited : Batch → Option String :=
  fun b => if 10 < b.length then some "batch too large" else none

/-! ## Properties -/

/-- The loop of `seedIndex` with a record count the program does not use: 95
records and `batchSize = 10` give 9 calls of `index.Batch`, of sizes 10, 11
(seven times) and 8. -/
theorem seedBatches_count_at_95 :
    (seedBatches batchOk 10 (sampleUsers 95)).calls.length = 9 ∧
    batchSizes (seedBatches batchOk 10 (sampleUsers 95)) = [10, 11, 11, 11, 11, 11, 11, 11, 8] ∧
    (95 + 10 - 1) / 10 = 10 := by
  decide

/-- The loop of `seedIndex` with a record count the program does not use: 11
records and `batchSize = 10` give one call with the first 10 records. -/
theorem seedBatches_loses_record_at_11 :
    (seedBatches batchOk 10 (sampleUsers 11)).ending = SeedEnd.returned ∧
    submittedRecords (seedBatches batchOk 10 (sampleUsers 11)) = sampleUsers 10 ∧
    submittedRecords (seedBatches batchOk 10 (sampleUsers 11)) ≠ sampleUsers 11 := by
  decide

/-- A run of the loop that returns made only successful calls of `index.Batch`:
it is the run on an index whose `Batch` always succeeds. -/
theorem seedLoop_of_returned (indexBatch : Batch → Option String) (batchSize : Nat)
    (users : List User) :
    ∀ (batch : Batch) (batchCount : Nat) (calls : List Batch),
      (seedLoop indexBatch batchSize users batch batchCount calls).ending = .returned →
      seedLoop indexBatch batchSize users batch batchCount calls =
        seedLoop batchOk batchSize users batch batchCount calls := by
  induction users with
  | nil =>
    intro batch batchCount calls h
    unfold seedLoop at h ⊢
    by_cases hc : batchCount > 0
    · simp only [hc, if_true] at h ⊢
      cases hb : indexBatch batch with
      | some err => simp [hb] at h
      | none => simp [batchOk]
    · simp only [hc, if_false]
  | cons user rest ih =>
    intro batch batchCount calls h
    unfold seedLoop at h ⊢
    by_cases hc : (batchCount + 1) % (batchSize + 1) = batchSize
    · simp only [hc, if_true] at h ⊢
      cases hb : indexBatch (batch ++ [(stringOfInt user.ID, user)]) with
      | some err => simp [hb] at h
      | none =>
        simp only [hb] at h
        simpa [batchOk] using ih _ _ _ h
    · simp only [hc, if_false] at h ⊢
      exact ih _ _ _ h

/-- A run of `seedIndex` that returns is the run on an index whose `Batch`
always succeeds. -/
theorem seedIndex_of_returned (draws : Nat → Draw) (indexBatch : Batch → Option String)
    (h : (seedIndex draws indexBatch).ending = .returned) :
    seedIndex draws indexBatch = seedIndex draws batchOk :=
  seedLoop_of_returned indexBatch 10 (createUsers draws 100) [] 0 [] h

/-- A run of `seedIndex` on an index that refuses batches of more than 10
operations panics at its second call. -/
theorem seedIndex_batchLimited :
    seedIndex (fun _ => sampleDraw) batchLimited =
      { calls := (seedIndex (fun _ => sampleDraw) batchOk).calls.take 2,
        ending := .panicked "batch too large" } := by
  decide

/-- C1: the batching loop as `seedIndex` runs it, on the only record count and
batch size it receives (100 records of `createUsers(100)`, `batchSize = 10`):
on an index whose `Batch` succeeds the run returns after `ceil(100 / 10) = 10`
calls of `index.Batch`, and every run that returns has made exactly that
many calls. -/
theorem seedIndex_batch_count (draws : Nat → Draw) :
    (createUsers draws 100).length = 100 ∧
    (seedIndex draws batchOk).ending = .returned ∧
    (seedIndex draws batchOk).calls.length = (100 + 10 - 1) / 10 ∧
    (∀ indexBatch : Batch → Option String,
      (seedIndex draws indexBatch).ending = .returned →
      (seedIndex draws indexBatch).calls.length = (100 + 10 - 1) / 10) := by
  have hcount : (seedIndex draws batchOk).calls.length = (100 + 10 - 1) / 10 := rfl
  refine ⟨rfl, rfl, hcount, fun indexBatch h => ?_⟩
  rw [seedIndex_of_returned draws indexBatch h]
  exact hcount

/-- Witness of `seedIndex_batch_count`: the run with the draws `sampleDraw` on
an index whose `Batch` always succeeds returns, after 10 calls. -/
theorem seedIndex_batch_count_witness :
    (seedIndex (fun _ => sampleDraw) batchOk).ending = .returned ∧
    (seedIndex (fun _ => sampleDraw) batchOk).calls.length = 10 :=
  ⟨(seedIndex_batch_count (fun _ => sampleDraw)).2.1,
    (seedIndex_batch_count (fun _ => sampleDraw)).2.2.2 batchOk
      (seedIndex_batch_count (fun _ => sampleDraw)).2.1⟩

/-- C2: the batching loop as `seedIndex` runs it (100 records,
`batchSize = 10`): the records of the submitted batches, concatenated in
submission order, are the records of `createUsers(100)` in their order; the
batch left after the loop, which holds the last two records, is the last
one submitted; and the same holds for every run that returns. -/
theorem seedIndex_submits_all (draws : Nat → Draw) :
    submittedRecords (seedIndex draws batchOk) = createUsers draws 100 ∧
    (seedIndex draws batchOk).calls.getLast? =
      some (((createUsers draws 100).drop 98).map (fun user => (stringOfInt user.ID, user))) ∧
    (∀ indexBatch : Batch → Option String,
      (seedIndex draws indexBatch).ending = .returned →
      submittedRecords (seedIndex draws indexBatch) = createUsers draws 100) := by
  have hall : submittedRecords (seedIndex draws batchOk) = createUsers draws 100 := rfl
  refine ⟨hall, rfl, fun indexBatch h => ?_⟩
  rw [seedIndex_of_returned draws indexBatch h]
  exact hall

/-- Witness of `seedIndex_submits_all`: the run with the draws `sampleDraw` on
an index whose `Batch` always succeeds returns and has submitted the 100
records in order. -/
theorem seedIndex_submits_all_witness :
    (seedIndex (fun _ => sampleDraw) batchOk).ending = .returned ∧
    submittedRecords (seedIndex (fun _ => sampleDraw) batchOk) = sampleUsers 100 :=
  ⟨rfl, (seedIndex_submits_all (fun _ => sampleDraw)).2.2 batchOk rfl⟩

/-- C3: the run of the program (100 records, `batchSize = 10`) submits 10
batches, but of sizes 10, 11 (eight times) and 2, not ten batches of 10. -/
theorem seedIndex_batch_sizes (draws : Nat → Draw) :
    batchSizes (seedIndex draws batchOk) = [10, 11, 11, 11, 11, 11, 11, 11, 11, 2] := by
  rfl

/-- C4: a submitted batch holds more than `batchSize` records: with 21 records
and `batchSize = 10` the second batch submitted inside the loop holds 11
records (and the flush after the loop submits an empty batch). -/
theorem seedBatches_oversized_at_21 :
    batchSizes (seedBatches batchOk 10 (sampleUsers 21)) = [10, 11, 0] ∧
    ((seedBatches batchOk 10 (sampleUsers 21)).calls.filter (fun b => 10 < b.length)).length = 1 := by
  decide

/-- C10: the line is not processed as a conversion of CRLF to LF: on the line
`exit\r\n` the program computes `exit\r` (the line feed is deleted, the
carriage return stays), where the conversion gives `exit\n`. -/
theorem lineText_crlf :
    lineText "exit\r\n" = "exit\r" ∧
    stringsReplaceAll "exit\r\n" "\r\n" "\n" = "exit\n" ∧
    lineText "exit\r\n" ≠ stringsReplaceAll "exit\r\n" "\r\n" "\n" := by
  decide

/-- C7: the request built for a raw query text carries that text unmodified,
the projection id, firstname, lastname, age, a facet `gender` over field
gender limited to 2 values and a facet `age_group` over field age with the
five labelled ranges; the rest of the request is the same for every text, and
this request is the one handed to `index.Search`. -/
theorem searchRequestFor_plan (searchString : String) :
    (searchRequestFor searchString).Query = searchString ∧
    (searchRequestFor searchString).Fields = ["id", "firstname", "lastname", "age"] ∧
    (searchRequestFor searchString).Facets.lookup "gender" =
      some { Size := 2, Field := "gender", NumericRanges := [] } ∧
    (searchRequestFor searchString).Facets.lookup "age_group" =
      some { Size := 5, Field := "age", NumericRanges :=
        [{ Name := "teenager", Min := none, Max := some 18 },
         { Name := "young-adult", Min := some 18, Max := some 25 },
         { Name := "adult", Min := some 25, Max := some 45 },
         { Name := "senior-adult", Min := some 45, Max := some 64 },
         { Name := "senior", Min := some 64, Max := none }] } ∧
    (∀ other : String,
      { searchRequestFor searchString with Query := other } = searchRequestFor other) ∧
    (∀ indexSearch : SearchRequest → Except String SearchResult,
      (search indexSearch searchString).requests = [searchRequestFor searchString]) := by
  refine ⟨rfl, rfl, rfl, rfl, fun _ => rfl, fun indexSearch => ?_⟩
  unfold search
  dsimp only
  split
  · rfl
  · split <;> rfl

/-- The five ranges of the `age_group` facet, as built by `search`. -/
theorem ageGroupRanges_eq (searchString : String) :
    ageGroupRanges searchString =
      [{ Name := "teenager", Min := none, Max := some 18 },
       { Name := "young-adult", Min := some 18, Max := some 25 },
       { Name := "adult", Min := some 25, Max := some 45 },
       { Name := "senior-adult", Min := some 45, Max := some 64 },
       { Name := "senior", Min := some 64, Max := none }] :=
  rfl

/-- Which of the five ranges, by position, holds a real number. -/
theorem ageGroupRanges_contains_iff (searchString : String) (x : ℝ) (i : ℕ) :
    (∃ r, (ageGroupRanges searchString)[i]? = some r ∧ r.contains x) ↔
      (i = 0 ∧ x < 18) ∨ (i = 1 ∧ 18 ≤ x ∧ x < 25) ∨ (i = 2 ∧ 25 ≤ x ∧ x < 45) ∨
      (i = 3 ∧ 45 ≤ x ∧ x < 64) ∨ (i = 4 ∧ 64 ≤ x) := by
  rw [ageGroupRanges_eq]
  rcases i with _ | _ | _ | _ | _ | i <;> simp [NumericRange.contains]

/-- C5: the five ranges attached to the age facet are teenager = (-inf, 18),
young-adult = [18, 25), adult = [25, 45), senior-adult = [45, 64) and
senior = [64, +inf), and every real number lies in exactly one of them (one
position of the list of ranges holds it, and no other). -/
theorem ageGroupRanges_partition (searchString : String) (x : ℝ) :
    (ageGroupRanges searchString).map (fun r => (r.Name, r.Min, r.Max)) =
      [("teenager", none, some 18), ("young-adult", some 18, some 25),
       ("adult", some 25, some 45), ("senior-adult", some 45, some 64),
       ("senior", some 64, none)] ∧
    ∃! i : ℕ, ∃ r, (ageGroupRanges searchString)[i]? = some r ∧ r.contains x := by
  refine ⟨rfl, ?_⟩
  simp only [ExistsUnique, ageGroupRanges_contains_iff]
  have uniq : ∀ k : ℕ, ((k = 0 ∧ x < 18) ∨ (k = 1 ∧ 18 ≤ x ∧ x < 25) ∨
      (k = 2 ∧ 25 ≤ x ∧ x < 45) ∨ (k = 3 ∧ 45 ≤ x ∧ x < 64) ∨ (k = 4 ∧ 64 ≤ x)) →
      ∀ j : ℕ, ((j = 0 ∧ x < 18) ∨ (j = 1 ∧ 18 ≤ x ∧ x < 25) ∨
      (j = 2 ∧ 25 ≤ x ∧ x < 45) ∨ (j = 3 ∧ 45 ≤ x ∧ x < 64) ∨ (j = 4 ∧ 64 ≤ x)) →
      j = k := by
    intro k hk j hj
    rcases hk with ⟨rfl, a⟩ | ⟨rfl, a, b⟩ | ⟨rfl, a, b⟩ | ⟨rfl, a, b⟩ | ⟨rfl, a⟩ <;>
      rcases hj with ⟨rfl, c⟩ | ⟨rfl, c, d⟩ | ⟨rfl, c, d⟩ | ⟨rfl, c, d⟩ | ⟨rfl, c⟩ <;>
      first | rfl | (exfalso; linarith)
  have cover : ∃ k : ℕ, (k = 0 ∧ x < 18) ∨ (k = 1 ∧ 18 ≤ x ∧ x < 25) ∨
      (k = 2 ∧ 25 ≤ x ∧ x < 45) ∨ (k = 3 ∧ 45 ≤ x ∧ x < 64) ∨ (k = 4 ∧ 64 ≤ x) := by
    rcases lt_or_le x 18 with h1 | h1
    · exact ⟨0, Or.inl ⟨rfl, h1⟩⟩
    rcases lt_or_le x 25 with h2 | h2
    · exact ⟨1, Or.inr (Or.inl ⟨rfl, h1, h2⟩)⟩
    rcases lt_or_le x 45 with h3 | h3
    · exact ⟨2, Or.inr (Or.inr (Or.inl ⟨rfl, h2, h3⟩))⟩
    rcases lt_or_le x 64 with h4 | h4
    · exact ⟨3, Or.inr (Or.inr (Or.inr (Or.inl ⟨rfl, h3, h4⟩)))⟩
    · exact ⟨4, Or.inr (Or.inr (Or.inr (Or.inr ⟨rfl, h4⟩)))⟩
  obtain ⟨k, hk⟩ := cover
  exact ⟨k, hk, uniq k hk⟩

/-- The row of a well-typed hit holds its four projected fields. -/
theorem hitRow_of_wellTyped {hit : DocumentMatch} (h : WellTyped hit) :
    ∃ row, hitRow hit = some row ∧ row.map some = projectedFields hit := by
  obtain ⟨id, firstname, lastname, age, h1, h2, h3, h4⟩ := h
  refine ⟨[.float64 id, .string firstname, .string lastname, .float64 age], ?_, ?_⟩
  · simp [hitRow, h1, h2, h3, h4, assertFloat64, assertString]
  · simp [projectedFields, h1, h2, h3, h4]

/-- A successful assertion `v.(float64)` means the value is a float64. -/
theorem assertFloat64_eq_some {o : Option Value} {x : ℚ} (h : assertFloat64 o = some x) :
    o = some (.float64 x) := by
  cases o with
  | none => simp [assertFloat64] at h
  | some v => cases v <;> simp_all [assertFloat64]

/-- A successful assertion `v.(string)` means the value is a string. -/
theorem assertString_eq_some {o : Option Value} {x : String} (h : assertString o = some x) :
    o = some (.string x) := by
  cases o with
  | none => simp [assertString] at h
  | some v => cases v <;> simp_all [assertString]

/-- Building the row of a hit that is not well-typed panics. -/
theorem hitRow_of_not_wellTyped {hit : DocumentMatch} (h : ¬ WellTyped hit) :
    hitRow hit = none := by
  cases h1 : assertFloat64 (hit.Fields.lookup "id") with
  | none => simp [hitRow, h1]
  | some id =>
    cases h2 : assertString (hit.Fields.lookup "firstname") with
    | none => simp [hitRow, h1, h2]
    | some firstname =>
      cases h3 : assertString (hit.Fields.lookup "lastname") with
      | none => simp [hitRow, h1, h2, h3]
      | some lastname =>
        cases h4 : assertFloat64 (hit.Fields.lookup "age") with
        | none => simp [hitRow, h1, h2, h3, h4]
        | some age =>
          exact absurd ⟨id, firstname, lastname, age, assertFloat64_eq_some h1,
            assertString_eq_some h2, assertString_eq_some h3, assertFloat64_eq_some h4⟩ h

/-- The loop over well-typed hits appends one row per hit, in order. -/
theorem appendHits_of_wellTyped (hits : List DocumentMatch) (t : Table)
    (h : ∀ hit ∈ hits, WellTyped hit) :
    ∃ rows, appendHits hits t = some { header := t.header, rows := t.rows ++ rows } ∧
      rows.map (fun row => row.map some) = hits.map projectedFields := by
  induction hits generalizing t with
  | nil => exact ⟨[], by simp [appendHits], rfl⟩
  | cons hit rest ih =>
    obtain ⟨row, hrow, hproj⟩ := hitRow_of_wellTyped (h hit (List.mem_cons_self _ _))
    obtain ⟨rows, hrows, hmap⟩ :=
      ih { t with rows := t.rows ++ [row] } (fun x hx => h x (List.mem_cons_of_mem _ hx))
    refine ⟨row :: rows, ?_, ?_⟩
    · simp only [appendHits, hrow, hrows]
      simp
    · simp [hproj, hmap]

/-- The loop panics as soon as one hit is not well-typed. -/
theorem appendHits_of_not_wellTyped (hits : List DocumentMatch) (t : Table)
    (h : ∃ hit ∈ hits, ¬ WellTyped hit) :
    appendHits hits t = none := by
  induction hits generalizing t with
  | nil => simp at h
  | cons hit rest ih =>
    unfold appendHits
    cases hrow : hitRow hit with
    | none => rfl
    | some row =>
      obtain ⟨bad, hmem, hbad⟩ := h
      rcases List.mem_cons.mp hmem with rfl | hin
      · rw [hitRow_of_not_wellTyped hbad] at hrow
        cases hrow
      · exact ih _ ⟨bad, hin, hbad⟩

/-- C8: rendering in `search`, for every search result returned by the index.
If every hit has `id` and `age` of type float64 and `firstname` and
`lastname` of type string, `search` returns nil after rendering the table
with the header row (#, First Name, Last Name, Age) and one row per hit, in
the order of the hits, holding that hit's id, firstname, lastname and age.
If some hit is not so typed, `search` panics and renders nothing. -/
theorem search_render (searchString : String) (searchResult : SearchResult) :
    ((∀ hit ∈ searchResult.Hits, WellTyped hit) →
      ∃ t, search (fun _ => .ok searchResult) searchString =
          { requests := [searchRequestFor searchString], rendered := some t,
            ending := .returnedNil } ∧
        t.header = [headerRow] ∧
        t.rows.map (fun row => row.map some) = searchResult.Hits.map projectedFields) ∧
    ((∃ hit ∈ searchResult.Hits, ¬ WellTyped hit) →
      search (fun _ => .ok searchResult) searchString =
        { requests := [searchRequestFor searchString], rendered := none,
          ending := .panicked }) := by
  constructor
  · intro h
    obtain ⟨rows, hrows, hmap⟩ := appendHits_of_wellTyped searchResult.Hits
      { header := [headerRow], rows := [] } h
    refine ⟨{ header := [headerRow], rows := rows }, ?_, rfl, hmap⟩
    have hr : renderResult searchResult = some { header := [headerRow], rows := rows } := by
      simpa [renderResult, headerRow] using hrows
    simp [search, hr]
  · intro h
    have hr : renderResult searchResult = none :=
      appendHits_of_not_wellTyped searchResult.Hits _ h
    simp [search, hr]

/-- The hit `goodHit` is well-typed. -/
theorem wellTyped_goodHit : WellTyped goodHit :=
  ⟨1000, "Ada", "Byron", 40, rfl, rfl, rfl, rfl⟩

/-- The hit `badHit` is not well-typed: its age is a string. -/
theorem not_wellTyped_badHit : ¬ WellTyped badHit := by
  rintro ⟨_, _, _, age, _, _, _, h4⟩
  have h : badHit.Fields.lookup "age" = some (.string "40") := rfl
  rw [h] at h4
  cases h4

/-- Witness of `search_render`: a result with one well-typed hit is rendered,
a result that also has a hit with a string age makes `search` panic. -/
theorem search_render_witness :
    (∀ hit ∈ (SearchResult.mk [goodHit]).Hits, WellTyped hit) ∧
    (∃ t, search (fun _ => .ok ⟨[goodHit]⟩) "gender:female" =
        { requests := [searchRequestFor "gender:female"], rendered := some t,
          ending := .returnedNil } ∧
      t.header = [headerRow] ∧
      t.rows.map (fun row => row.map some) = [projectedFields goodHit]) ∧
    (∃ hit ∈ (SearchResult.mk [goodHit, badHit]).Hits, ¬ WellTyped hit) ∧
    search (fun _ => .ok ⟨[goodHit, badHit]⟩) "gender:female" =
      { requests := [searchRequestFor "gender:female"], rendered := none,
        ending := .panicked } :=
  have hgood : ∀ hit ∈ (SearchResult.mk [goodHit]).Hits, WellTyped hit := by
    intro hit hmem
    rw [List.mem_singleton.mp hmem]
    exact wellTyped_goodHit
  have hbad : ∃ hit ∈ (SearchResult.mk [goodHit, badHit]).Hits, ¬ WellTyped hit :=
    ⟨badHit, by simp, not_wellTyped_badHit⟩
  ⟨hgood, (search_render "gender:female" ⟨[goodHit]⟩).1 hgood,
    hbad, (search_render "gender:female" ⟨[goodHit, badHit]⟩).2 hbad⟩

/-- One iteration of the loop of `main` on an arbitrary `index.Search`, with
text the line without its line feeds.  If text is `exit`, the iteration prints
the farewell, ends in Done and makes no search call.  For every other text it
makes exactly one call of `index.Search`, with the request built for text;
it stays in Reading when that call returns an error and when it succeeds
with well-typed hits only, and it ends by a panic when the call succeeds with
a hit that is not well-typed. -/
theorem mainStep_session (indexSearch : SearchRequest → Except String SearchResult)
    (line : String) :
    (lineText line = "exit" →
      mainStep indexSearch line =
        { state := .Done, searches := [],
          printed := [.text "-> ", .text "Goodbye!\n"] }) ∧
    (lineText line ≠ "exit" →
      (mainStep indexSearch line).searches = [searchRequestFor (lineText line)] ∧
      (searchRequestFor (lineText line)).From = 0 ∧
      (searchRequestFor (lineText line)).Size = 5 ∧
      (searchRequestFor (lineText line)).Facets.map Prod.fst = ["gender", "age_group"] ∧
      (∀ err, indexSearch (searchRequestFor (lineText line)) = .error err →
        (mainStep indexSearch line).state = .Reading) ∧
      (∀ res, indexSearch (searchRequestFor (lineText line)) = .ok res →
        (∀ hit ∈ res.Hits, WellTyped hit) →
        (mainStep indexSearch line).state = .Reading) ∧
      (∀ res, indexSearch (searchRequestFor (lineText line)) = .ok res →
        (∃ hit ∈ res.Hits, ¬ WellTyped hit) →
        (mainStep indexSearch line).state = .Crashed)) := by
  constructor
  · intro h
    simp [mainStep, h]
  · intro h
    have hne : ¬ ("exit" = lineText line) := fun e => h e.symm
    refine ⟨?_, rfl, rfl, rfl, ?_, ?_, ?_⟩
    · cases hres : indexSearch (searchRequestFor (lineText line)) with
      | error err => simp [mainStep, hne, search, hres]
      | ok res =>
        cases hr : renderResult res with
        | none => simp [mainStep, hne, search, hres, hr]
        | some t => simp [mainStep, hne, search, hres, hr]
    · intro err herr
      simp [mainStep, hne, search, herr]
    · intro res hres hall
      obtain ⟨rows, hrows, -⟩ := appendHits_of_wellTyped res.Hits
        { header := [headerRow], rows := [] } hall
      have hr : renderResult res = some { header := [headerRow], rows := rows } := by
        simpa [renderResult, headerRow] using hrows
      simp [mainStep, hne, search, hres, hr]
    · intro res hres hsome
      have hr : renderResult res = none := appendHits_of_not_wellTyped res.Hits _ hsome
      simp [mainStep, hne, search, hres, hr]

/-- The hits of the index that holds `User` documents are well-typed when the
request is the one `search` builds. -/
theorem memIndexSearch_wellTyped
    (engine : SearchRequest → List Op → Except String (List Nat)) (docs : List Op)
    (searchString : String) (res : SearchResult)
    (h : memIndexSearch engine docs (searchRequestFor searchString) = .ok res) :
    ∀ hit ∈ res.Hits, WellTyped hit := by
  unfold memIndexSearch at h
  cases he : engine (searchRequestFor searchString) docs with
  | error err => simp [he] at h
  | ok ranked =>
    simp only [he] at h
    injection h with h
    subst h
    intro hit hmem
    obtain ⟨doc, -, rfl⟩ := List.mem_map.mp hmem
    exact ⟨doc.2.ID, doc.2.Firstname, doc.2.Lastname, doc.2.Age, rfl, rfl, rfl, rfl⟩

/-- C6: one iteration of the loop of `main`, on the index that `main` has
built and seeded, for every line read, with text the line without its line
feeds.  If text is `exit`, the iteration prints the farewell, ends in Done and
makes no search call.  For every other text it makes exactly one call of
`index.Search`, whose request has From = 0, Size = 5 and exactly the two
facets `gender` and `age_group`, and the session stays in Reading, whether
the engine answers with an error or with hits. -/
theorem mainLoopStep_session (draws : Nat → Draw)
    (engine : SearchRequest → List Op → Except String (List Nat)) (line : String) :
    (lineText line = "exit" →
      mainLoopStep draws engine line =
        { state := .Done, searches := [],
          printed := [.text "-> ", .text "Goodbye!\n"] }) ∧
    (lineText line ≠ "exit" →
      (∃ req, (mainLoopStep draws engine line).searches = [req] ∧
        req.Query = lineText line ∧ req.From = 0 ∧ req.Size = 5 ∧
        req.Facets.map Prod.fst = ["gender", "age_group"]) ∧
      (mainLoopStep draws engine line).state = .Reading) := by
  have key := mainStep_session (memIndexSearch engine (mainIndexDocs draws)) line
  refine ⟨key.1, fun hne => ?_⟩
  obtain ⟨hsearches, -, -, -, herr, hok, -⟩ := key.2 hne
  refine ⟨⟨searchRequestFor (lineText line), hsearches, rfl, rfl, rfl, rfl⟩, ?_⟩
  cases hres : memIndexSearch engine (mainIndexDocs draws) (searchRequestFor (lineText line)) with
  | error err => exact herr err hres
  | ok res => exact hok res hres (memIndexSearch_wellTyped engine _ _ res hres)

/-- Witness of `mainLoopStep_session`: on the seeded index, the line `exit`
ends the session, the line `gender:female` (three hits) and the line
`gender:` (a syntax error of the engine) leave it in Reading. -/
theorem mainLoopStep_session_witness :
    lineText "exit\n" = "exit" ∧
    mainLoopStep (fun _ => sampleDraw) sampleEngine "exit\n" =
      { state := .Done, searches := [], printed := [.text "-> ", .text "Goodbye!\n"] } ∧
    lineText "gender:female\n" ≠ "exit" ∧
    (mainLoopStep (fun _ => sampleDraw) sampleEngine "gender:female\n").state = .Reading ∧
    lineText "gender:\n" ≠ "exit" ∧
    (mainLoopStep (fun _ => sampleDraw) sampleEngine "gender:\n").state = .Reading :=
  have hexit : lineText "exit\n" = "exit" := by decide
  have hne1 : lineText "gender:female\n" ≠ "exit" := by decide
  have hne2 : lineText "gender:\n" ≠ "exit" := by decide
  ⟨hexit, (mainLoopStep_session (fun _ => sampleDraw) sampleEngine "exit\n").1 hexit,
    hne1, ((mainLoopStep_session (fun _ => sampleDraw) sampleEngine "gender:female\n").2 hne1).2,
    hne2, ((mainLoopStep_session (fun _ => sampleDraw) sampleEngine "gender:\n").2 hne2).2⟩

/-- The character of a valid code point has that code point. -/
theorem toNat_ofNat_of_valid (n : Nat) (h : n.isValidChar) : (Char.ofNat n).toNat = n := by
  rw [Char.ofNat, dif_pos h]
  rfl

/-- Go's `string(i)` tells valid code points apart. -/
theorem stringOfInt_inj {a b : Int} (ha : validRune a = true) (hb : validRune b = true)
    (h : stringOfInt a = stringOfInt b) : a = b := by
  have va : a.toNat.isValidChar := by
    simp [validRune] at ha
    unfold Nat.isValidChar
    omega
  have vb : b.toNat.isValidChar := by
    simp [validRune] at hb
    unfold Nat.isValidChar
    omega
  simp only [stringOfInt, ha, hb, if_true] at h
  have hc : Char.ofNat a.toNat = Char.ofNat b.toNat := by
    have hd := congrArg String.data h
    simpa using hd
  have hn := congrArg Char.toNat hc
  rw [toNat_ofNat_of_valid _ va, toNat_ofNat_of_valid _ vb] at hn
  simp [validRune] at ha hb
  omega

/-- C9: `createUsers(n)` gives the record at index `i` the id `1000 + i`, so the
ids are pairwise distinct; the keys `string(user.ID)` of the 100 records of
`seedIndex` are pairwise distinct, and these are the keys under which
`seedIndex` stages and submits the records. -/
theorem createUsers_keys_distinct (draws : Nat → Draw) (numUsers : Int) :
    (createUsers draws numUsers).map User.ID =
      (List.range numUsers.toNat).map (fun i : Nat => 1000 + (i : Int)) ∧
    ((createUsers draws numUsers).map User.ID).Nodup ∧
    ((createUsers draws 100).map (fun user => stringOfInt user.ID)).Nodup ∧
    (seedIndex draws batchOk).calls.flatten =
      (createUsers draws 100).map (fun user => (stringOfInt user.ID, user)) := by
  have hids : ∀ n : Int, (createUsers draws n).map User.ID =
      (List.range n.toNat).map (fun i : Nat => 1000 + (i : Int)) := by
    intro n
    simp [createUsers, mkUser, List.map_map, Function.comp_def, add_comm]
  refine ⟨hids numUsers, ?_, ?_, rfl⟩
  · rw [hids]
    refine List.Nodup.map ?_ (List.nodup_range _)
    intro a b hab
    simpa using hab
  · have hkeys : (createUsers draws 100).map (fun user => stringOfInt user.ID) =
        (List.range 100).map (fun i : Nat => stringOfInt (1000 + (i : Int))) := by
      simp [createUsers, mkUser, List.map_map, Function.comp_def, add_comm]
    rw [hkeys]
    refine List.Nodup.map_on ?_ (List.nodup_range _)
    intro a ha b hb hab
    have ha1 : a < 100 := List.mem_range.mp ha
    have hb1 : b < 100 := List.mem_range.mp hb
    have hv : ∀ i : Nat, i < 100 → validRune (1000 + (i : Int)) = true := by
      intro i hi
      simp [validRune]
      omega
    have := stringOfInt_inj (hv a ha1) (hv b hb1) hab
    omega

end BleveDemo
